import Mathlib

/-
Verification of the cosmological distance model of the BATIP repository.

The repository contains three implementations of the same forward model:
 * a flat-universe JAX version (`flat_universe.ipynb`): `H`, `luminosity_distance`,
   `distance_modulus`;
 * a general (non-flat) JAX version (`src/unnamed/part_001`): `H`,
   `luminosity_distance` with curvature branches, `distance_modulus`;
 * a batched PyTorch version (`sbi_flat_universe.ipynb`): `H`, `luminosity_distance`
   with one shared cumulative grid plus per-target linear interpolation, and the
   distance-modulus computation inside `simulator`.

Below, every definition is a direct shallow embedding of the corresponding Python
function over the real numbers, keeping the source's structure (grids as `linspace`,
rectangle-rule sums as `Finset.sum`, `jnp.maximum`/`torch.clamp` as `max`,
`torch.cumsum` as partial sums, `torch.searchsorted` as the count of grid entries
strictly below the query).
-/

namespace BATIP

/-- Speed of light in km/s, the constant `c = 299792.458` shared by all notebooks. -/
noncomputable def c : ℝ := 299792.458

/-- The numerical floor `1e-10` used by every clamp in the source. -/
noncomputable def eps : ℝ := 1 / 10 ^ 10

/-- The fixed number of integration points, `N = 1000` in every implementation. -/
abbrev Npts : ℕ := 1000

/-- `jnp.linspace(a, b, n)` / `torch.linspace(a, b, n)`: the `k`-th of `n` evenly
spaced points from `a` to `b` (exact real arithmetic). -/
noncomputable def linspace (a b : ℝ) (n : ℕ) (k : ℕ) : ℝ :=
  a + k * ((b - a) / ((n : ℝ) - 1))

/-- The redshift grid `z_array = jnp.linspace(0, z, N)` built by both JAX
`luminosity_distance` implementations. -/
noncomputable def zgrid (z : ℝ) (k : ℕ) : ℝ := linspace 0 z Npts k

/-- The grid as a list, to talk about its point count. -/
noncomputable def zgridList (z : ℝ) : List ℝ := (List.range Npts).map (zgrid z)

/-- The step `dz = z_array[1] - z_array[0]` of the JAX implementations. -/
noncomputable def dzStep (z : ℝ) : ℝ := zgrid z 1 - zgrid z 0

/-- `H(z, H0, Om)` from `flat_universe.ipynb`:
`H0 * jnp.sqrt(jnp.maximum(Om * (1 + z)**3 + OL, 1e-10))` with `OL = 1 - Om`. -/
noncomputable def Hflat (z H0 Om : ℝ) : ℝ :=
  H0 * Real.sqrt (max (Om * (1 + z) ^ 3 + (1 - Om)) eps)

/-- The comoving-distance sum `chi = jnp.sum(integrand_values) * dz` inside the flat
`luminosity_distance(z, Om, H0)`. -/
noncomputable def chiFlat (z Om H0 : ℝ) : ℝ :=
  (∑ k ∈ Finset.range Npts, c / Hflat (zgrid z k) H0 Om) * dzStep z

/-- `luminosity_distance(z, Om, H0)` from `flat_universe.ipynb`:
`jnp.maximum((1 + z) * chi, 1e-10)`. -/
noncomputable def luminosity_distance_flat (z Om H0 : ℝ) : ℝ :=
  max ((1 + z) * chiFlat z Om H0) eps

/-- `distance_modulus(z, Om, H0)` from `flat_universe.ipynb`:
`5 * jnp.log10(jnp.maximum(dL, 1e-10)) + 25`. -/
noncomputable def distance_modulus_flat (z Om H0 : ℝ) : ℝ :=
  5 * Real.logb 10 (max (luminosity_distance_flat z Om H0) eps) + 25

/-- `H(z, H0, Om, Ok)` from `src/unnamed/part_001`:
`H0 * jnp.sqrt(jnp.maximum(Om * (1 + z)**3 + Ok * (1 + z)**2 + OL, 1e-10))`
with `OL = 1 - Om - Ok`. -/
noncomputable def Hgen (z H0 Om Ok : ℝ) : ℝ :=
  H0 * Real.sqrt (max (Om * (1 + z) ^ 3 + Ok * (1 + z) ^ 2 + (1 - Om - Ok)) eps)

/-- The comoving-distance sum `chi` inside the general
`luminosity_distance(z, Om, Ok, H0)` of `src/unnamed/part_001`. -/
noncomputable def chiGen (z Om Ok H0 : ℝ) : ℝ :=
  (∑ k ∈ Finset.range Npts, c / Hgen (zgrid z k) H0 Om Ok) * dzStep z

/-- `sqrt_abs_Ok = jnp.sqrt(jnp.abs(Ok)) * H0 / c` from `src/unnamed/part_001`. -/
noncomputable def sqrt_abs_Ok (Ok H0 : ℝ) : ℝ := Real.sqrt |Ok| * H0 / c

/-- `open_case = (c / (H0 * sqrt_abs_Ok)) * jnp.sinh(sqrt_abs_Ok * chi)`. -/
noncomputable def open_case (z Om Ok H0 : ℝ) : ℝ :=
  (c / (H0 * sqrt_abs_Ok Ok H0)) * Real.sinh (sqrt_abs_Ok Ok H0 * chiGen z Om Ok H0)

/-- `closed_case = (c / (H0 * sqrt_abs_Ok)) * jnp.sin(sqrt_abs_Ok * chi)`. -/
noncomputable def closed_case (z Om Ok H0 : ℝ) : ℝ :=
  (c / (H0 * sqrt_abs_Ok Ok H0)) * Real.sin (sqrt_abs_Ok Ok H0 * chiGen z Om Ok H0)

/-- The nested `jnp.where` branch selection of `src/unnamed/part_001`:
flat when `|Ok| < 1e-10`, else open when `Ok > 0`, else closed. -/
noncomputable def dMgen (z Om Ok H0 : ℝ) : ℝ :=
  if |Ok| < eps then chiGen z Om Ok H0
  else if Ok > 0 then open_case z Om Ok H0
  else closed_case z Om Ok H0

/-- `luminosity_distance(z, Om, Ok, H0)` from `src/unnamed/part_001`:
`jnp.maximum((1 + z) * dM, 1e-10)`. -/
noncomputable def luminosity_distance_gen (z Om Ok H0 : ℝ) : ℝ :=
  max ((1 + z) * dMgen z Om Ok H0) eps

/-- `distance_modulus(z, Om, Ok, H0)` from `src/unnamed/part_001`. -/
noncomputable def distance_modulus_gen (z Om Ok H0 : ℝ) : ℝ :=
  5 * Real.logb 10 (max (luminosity_distance_gen z Om Ok H0) eps) + 25

/-- `H(z, theta)` from `sbi_flat_universe.ipynb`, for one parameter row
`theta = (H0, Om)`: `H0 * torch.sqrt(torch.clamp(Om * (1 + z)**3 + OL, min=1e-10))`
with `OL = 1 - Om`. -/
noncomputable def Hsbi (z H0 Om : ℝ) : ℝ :=
  H0 * Real.sqrt (max (Om * (1 + z) ^ 3 + (1 - Om)) eps)

/-- The shared grid `z_array = torch.linspace(0, z.max(), N)` of the batched path,
parameterized by `zmax = z.max()`. -/
noncomputable def sbiGrid (zmax : ℝ) (k : ℕ) : ℝ := linspace 0 zmax Npts k

/-- The batched step `dz = z_array[1] - z_array[0]`. -/
noncomputable def sbiDz (zmax : ℝ) : ℝ := sbiGrid zmax 1 - sbiGrid zmax 0

/-- Entry `j` of `chi = torch.cumsum(integrand_values * dz, dim=1)`: the running
cumulative integral over the shared grid. -/
noncomputable def sbiChiCum (zmax H0 Om : ℝ) (j : ℕ) : ℝ :=
  ∑ k ∈ Finset.range (j + 1), c / Hsbi (sbiGrid zmax k) H0 Om * sbiDz zmax

/-- `torch.searchsorted(z_array, z[i])` (left side): in a sorted array this is the
number of entries strictly below the query value. -/
noncomputable def searchsorted (zmax v : ℝ) : ℕ :=
  ((Finset.range Npts).filter (fun k => sbiGrid zmax k < v)).card

/-- `idx = torch.clamp(idx, 1, N-1)`. -/
noncomputable def sbiIdx (zmax v : ℝ) : ℕ :=
  max 1 (min (searchsorted zmax v) (Npts - 1))

/-- The interpolation weight `w = (z[i] - z0) / (z1 - z0)` with
`z0 = z_array[idx-1]` and `z1 = z_array[idx]`. -/
noncomputable def sbiW (zmax v : ℝ) : ℝ :=
  (v - sbiGrid zmax (sbiIdx zmax v - 1)) /
    (sbiGrid zmax (sbiIdx zmax v) - sbiGrid zmax (sbiIdx zmax v - 1))

/-- `chi_interp[:, i] = chi0 * (1 - w) + chi1 * w`: the comoving distance recovered
for target redshift `v` in the batched path. -/
noncomputable def sbiChiInterp (zmax v H0 Om : ℝ) : ℝ :=
  sbiChiCum zmax H0 Om (sbiIdx zmax v - 1) * (1 - sbiW zmax v) +
    sbiChiCum zmax H0 Om (sbiIdx zmax v) * sbiW zmax v

/-- Per-element batched luminosity distance:
`torch.clamp((1 + z) * chi_interp, min=1e-10)`. -/
noncomputable def luminosity_distance_sbi (zmax v H0 Om : ℝ) : ℝ :=
  max ((1 + v) * sbiChiInterp zmax v H0 Om) eps

/-- The distance modulus computed inside `simulator` (before the additive Gaussian
observational noise): `mu = 5 * torch.log10(torch.clamp(dL, min=1e-10)) + 25`. -/
noncomputable def mu_sbi (zmax v H0 Om : ℝ) : ℝ :=
  5 * Real.logb 10 (max (luminosity_distance_sbi zmax v H0 Om) eps) + 25

/-- Modelled from the spec: the open-branch transverse comoving distance claimed by
the spec, `r(z) = (c / (H0 * sqrt(Ok))) * sinh(sqrt(Ok) * (H0 / c) * chi(z))`,
stated verbatim from the spec's formula for comparison with the code's
`open_case`. -/
noncomputable def spec_r_open (z Om Ok H0 : ℝ) : ℝ :=
  (c / (H0 * Real.sqrt Ok)) * Real.sinh (Real.sqrt Ok * (H0 / c) * chiGen z Om Ok H0)

/-! ### Basic facts about the constants and the grids -/

lemma eps_pos : 0 < eps := by unfold eps; norm_num

lemma eps_le_one : eps ≤ 1 := by unfold eps; norm_num

lemma c_pos : 0 < c := by unfold c; norm_num

lemma c_ne_zero : c ≠ 0 := ne_of_gt c_pos

lemma sqrt_eps : Real.sqrt eps = 1 / 10 ^ 5 := by
  rw [show eps = ((1 : ℝ) / 10 ^ 5) ^ 2 by unfold eps; norm_num]
  exact Real.sqrt_sq (by norm_num)

lemma logb_eps : Real.logb 10 eps = -10 := by
  have h10 : (0 : ℝ) < Real.log 10 := Real.log_pos (by norm_num)
  have : eps = (10 : ℝ) ^ (-10 : ℤ) := by unfold eps; norm_num
  rw [this, Real.logb, Real.log_zpow]
  field_simp

lemma zgrid_eq (z : ℝ) (k : ℕ) : zgrid z k = k * (z / 999) := by
  unfold zgrid linspace Npts
  norm_num

lemma dzStep_eq (z : ℝ) : dzStep z = z / 999 := by
  unfold dzStep
  rw [zgrid_eq, zgrid_eq]
  norm_num

lemma sbiGrid_eq (zmax : ℝ) (k : ℕ) : sbiGrid zmax k = k * (zmax / 999) := by
  unfold sbiGrid linspace Npts
  norm_num

lemma sbiDz_eq (zmax : ℝ) : sbiDz zmax = zmax / 999 := by
  unfold sbiDz
  rw [sbiGrid_eq, sbiGrid_eq]
  norm_num

/-! ### Positivity of the Hubble parameter -/

lemma radicand_pos (x : ℝ) : 0 < max x eps := lt_of_lt_of_le eps_pos (le_max_right x eps)

lemma Hflat_pos {H0 : ℝ} (hH0 : 0 < H0) (z Om : ℝ) : 0 < Hflat z H0 Om :=
  mul_pos hH0 (Real.sqrt_pos.mpr (radicand_pos _))

lemma Hgen_pos {H0 : ℝ} (hH0 : 0 < H0) (z Om Ok : ℝ) : 0 < Hgen z H0 Om Ok :=
  mul_pos hH0 (Real.sqrt_pos.mpr (radicand_pos _))

lemma Hsbi_pos {H0 : ℝ} (hH0 : 0 < H0) (z Om : ℝ) : 0 < Hsbi z H0 Om :=
  mul_pos hH0 (Real.sqrt_pos.mpr (radicand_pos _))

/-- Claim C5: for all `z ≥ 0` and valid parameters (`H0 > 0`, any `Om`, `Ok`),
the Hubble parameter is strictly positive in the flat specialization, the general
model, and the batched implementation, thanks to the `1e-10` radicand floor. -/
theorem hubble_parameter_pos (z H0 Om Ok : ℝ) (hz : 0 ≤ z) (hH0 : 0 < H0) :
    0 < Hflat z H0 Om ∧ 0 < Hgen z H0 Om Ok ∧ 0 < Hsbi z H0 Om :=
  ⟨Hflat_pos hH0 z Om, Hgen_pos hH0 z Om Ok, Hsbi_pos hH0 z Om⟩

/-- Witness for C5 at `z = 1`, `H0 = 70`, `Om = 0.3`, `Ok = 0.05`. -/
theorem hubble_parameter_pos_witness :
    (0 : ℝ) ≤ 1 ∧ (0 : ℝ) < 70 ∧
      (0 < Hflat 1 70 (3/10) ∧ 0 < Hgen 1 70 (3/10) (1/20) ∧ 0 < Hsbi 1 70 (3/10)) :=
  ⟨by norm_num, by norm_num,
    hubble_parameter_pos 1 70 (3/10) (1/20) (by norm_num) (by norm_num)⟩

/-! ### The comoving-distance sum (C2) -/

/-- Claim C2: inside both JAX `luminosity_distance` implementations, the comoving
distance equals `dz` times the sum of all `N = 1000` integrand samples
`c / H(z_k)`, with grid points `z_k = k * z / (N - 1)` and step
`dz = z / (N - 1)`. -/
theorem comoving_distance_sum (z H0 Om Ok : ℝ) (hz : 0 < z) (hH0 : 0 < H0) :
    chiFlat z Om H0 =
      (z / 999) * ∑ k ∈ Finset.range 1000, c / Hflat ((k : ℝ) * (z / 999)) H0 Om ∧
    chiGen z Om Ok H0 =
      (z / 999) * ∑ k ∈ Finset.range 1000, c / Hgen ((k : ℝ) * (z / 999)) H0 Om Ok := by
  constructor
  · have hsum : (∑ k ∈ Finset.range Npts, c / Hflat (zgrid z k) H0 Om) =
        ∑ k ∈ Finset.range 1000, c / Hflat ((k : ℝ) * (z / 999)) H0 Om :=
      Finset.sum_congr rfl fun k _ => by rw [zgrid_eq]
    unfold chiFlat
    rw [hsum, dzStep_eq, mul_comm]
  · have hsum : (∑ k ∈ Finset.range Npts, c / Hgen (zgrid z k) H0 Om Ok) =
        ∑ k ∈ Finset.range 1000, c / Hgen ((k : ℝ) * (z / 999)) H0 Om Ok :=
      Finset.sum_congr rfl fun k _ => by rw [zgrid_eq]
    unfold chiGen
    rw [hsum, dzStep_eq, mul_comm]

/-- Witness for C2 at `z = 1`, `H0 = 70`, `Om = 0.3`, `Ok = 0.05`. -/
theorem comoving_distance_sum_witness :
    (0 : ℝ) < 1 ∧ (0 : ℝ) < 70 ∧
      chiFlat 1 (3/10) 70 =
        (1 / 999 : ℝ) * ∑ k ∈ Finset.range 1000, c / Hflat ((k : ℝ) * (1 / 999)) 70 (3/10) := by
  refine ⟨by norm_num, by norm_num, ?_⟩
  have h := (comoving_distance_sum 1 70 (3/10) (1/20) (by norm_num) (by norm_num)).1
  simpa using h

/-! ### Distance modulus at `z = 0` (C9) -/

lemma dzStep_zero : dzStep 0 = 0 := by rw [dzStep_eq]; norm_num

lemma chiFlat_zero (Om H0 : ℝ) : chiFlat 0 Om H0 = 0 := by
  unfold chiFlat
  rw [dzStep_zero, mul_zero]

lemma chiGen_zero (Om Ok H0 : ℝ) : chiGen 0 Om Ok H0 = 0 := by
  unfold chiGen
  rw [dzStep_zero, mul_zero]

lemma dMgen_zero (Om Ok H0 : ℝ) : dMgen 0 Om Ok H0 = 0 := by
  unfold dMgen open_case closed_case
  rw [chiGen_zero]
  split_ifs
  · rfl
  · rw [mul_zero, Real.sinh_zero, mul_zero]
  · rw [mul_zero, Real.sin_zero, mul_zero]

/-- Claim C9: at `z = 0` the clamps turn the theoretical `-∞` into the finite value
`5 * log10(1e-10) + 25 = -25`, in both the flat and the general model. -/
theorem distance_modulus_at_zero (Om Ok H0 : ℝ) (hH0 : 0 < H0) :
    distance_modulus_flat 0 Om H0 = -25 ∧ distance_modulus_gen 0 Om Ok H0 = -25 := by
  constructor
  · unfold distance_modulus_flat luminosity_distance_flat
    rw [chiFlat_zero, mul_zero, max_eq_right (le_of_lt eps_pos), max_self, logb_eps]
    norm_num
  · unfold distance_modulus_gen luminosity_distance_gen
    rw [dMgen_zero, mul_zero, max_eq_right (le_of_lt eps_pos), max_self, logb_eps]
    norm_num

/-- Witness for C9 at `H0 = 70`, `Om = 0.3`, `Ok = 0.05`. -/
theorem distance_modulus_at_zero_witness :
    (0 : ℝ) < 70 ∧ distance_modulus_flat 0 (3/10) 70 = -25 ∧
      distance_modulus_gen 0 (3/10) (1/20) 70 = -25 :=
  ⟨by norm_num, (distance_modulus_at_zero (3/10) (1/20) 70 (by norm_num)).1,
    (distance_modulus_at_zero (3/10) (1/20) 70 (by norm_num)).2⟩

/-! ### The global `-25` floor (C10) -/

lemma modulus_floor_aux (x : ℝ) : -25 ≤ 5 * Real.logb 10 (max x eps) + 25 := by
  have h1 : Real.logb 10 eps ≤ Real.logb 10 (max x eps) :=
    Real.logb_le_logb_of_le (by norm_num) eps_pos (le_max_right x eps)
  rw [logb_eps] at h1
  linarith

/-- Claim C10: every implementation's distance modulus is bounded below by
`5 * log10(1e-10) + 25 = -25`, for all real inputs, because the luminosity distance
is clamped to at least `1e-10` before the base-10 logarithm. -/
theorem distance_modulus_floor (z Om Ok H0 zmax v : ℝ) :
    -25 ≤ distance_modulus_flat z Om H0 ∧ -25 ≤ distance_modulus_gen z Om Ok H0 ∧
      -25 ≤ mu_sbi zmax v H0 Om :=
  ⟨modulus_floor_aux _, modulus_floor_aux _, modulus_floor_aux _⟩

/-! ### Agreement of the general model at `Ok = 0` with the flat model (C7) -/

lemma Hgen_Ok_zero (z H0 Om : ℝ) : Hgen z H0 Om 0 = Hflat z H0 Om := by
  unfold Hgen Hflat
  ring_nf

lemma chiGen_Ok_zero (z Om H0 : ℝ) : chiGen z Om 0 H0 = chiFlat z Om H0 := by
  have hsum : (∑ k ∈ Finset.range Npts, c / Hgen (zgrid z k) H0 Om 0) =
      ∑ k ∈ Finset.range Npts, c / Hflat (zgrid z k) H0 Om :=
    Finset.sum_congr rfl fun k _ => by rw [Hgen_Ok_zero]
  unfold chiGen chiFlat
  rw [hsum]

lemma dMgen_Ok_zero (z Om H0 : ℝ) : dMgen z Om 0 H0 = chiFlat z Om H0 := by
  unfold dMgen
  rw [if_pos (by rw [abs_zero]; exact eps_pos), chiGen_Ok_zero]

lemma distance_modulus_gen_Ok_zero (z Om H0 : ℝ) :
    distance_modulus_gen z Om 0 H0 = distance_modulus_flat z Om H0 := by
  unfold distance_modulus_gen distance_modulus_flat luminosity_distance_gen
    luminosity_distance_flat
  rw [dMgen_Ok_zero]

/-- Claim C7: with `Ok = 0` the general model agrees with the flat specialization to
within `1e-6` relative tolerance (in fact they coincide exactly in real
arithmetic). -/
theorem general_matches_flat_at_Ok_zero (z Om H0 : ℝ) (hz : 0 ≤ z) (hH0 : 0 < H0) :
    |distance_modulus_gen z Om 0 H0 - distance_modulus_flat z Om H0| ≤
      (1 / 10 ^ 6) * |distance_modulus_flat z Om H0| := by
  rw [distance_modulus_gen_Ok_zero, sub_self, abs_zero]
  positivity

/-- Witness for C7 at `z = 1`, `Om = 0.3`, `H0 = 70`. -/
theorem general_matches_flat_at_Ok_zero_witness :
    (0 : ℝ) ≤ 1 ∧ (0 : ℝ) < 70 ∧
      |distance_modulus_gen 1 (3/10) 0 70 - distance_modulus_flat 1 (3/10) 70| ≤
        (1 / 10 ^ 6) * |distance_modulus_flat 1 (3/10) 70| :=
  ⟨by norm_num, by norm_num,
    general_matches_flat_at_Ok_zero 1 (3/10) 70 (by norm_num) (by norm_num)⟩

/-! ### The redshift-grid invariant (C4) -/

lemma c_val : c = 299792.458 := rfl

lemma zgridList_length (z : ℝ) : (zgridList z).length = 1000 := by
  unfold zgridList
  simp

/-- Counterexample to C4: at a distance evaluation with target redshift `z = 0`
(a value the spec itself discusses), the grid is constantly `0`, hence not
strictly increasing; the claimed invariant fails as stated. -/
theorem redshift_grid_invariant_fails_at_zero :
    ¬ ((zgridList 0).length = 1000 ∧
        (∀ k, k + 1 < 1000 → zgrid 0 k < zgrid 0 (k + 1)) ∧
        zgrid 0 0 = 0 ∧ zgrid 0 999 = 0) := by
  intro h
  have h01 := h.2.1 0 (by norm_num)
  rw [zgrid_eq, zgrid_eq] at h01
  norm_num at h01

/-- Claim C4 (amended: target redshift `z > 0`): the grid has exactly `N = 1000`
points, is strictly increasing, its first element is exactly `0` and its last
element is exactly the target redshift `z`. -/
theorem redshift_grid_invariant (z : ℝ) (hz : 0 < z) :
    (zgridList z).length = 1000 ∧
      (∀ k, k + 1 < 1000 → zgrid z k < zgrid z (k + 1)) ∧
      zgrid z 0 = 0 ∧ zgrid z 999 = z := by
  refine ⟨zgridList_length z, fun k hk => ?_, by rw [zgrid_eq]; norm_num,
    by rw [zgrid_eq]; push_cast; ring⟩
  rw [zgrid_eq, zgrid_eq]
  have hq : 0 < z / 999 := by positivity
  have hcast : (k : ℝ) < ((k + 1 : ℕ) : ℝ) := by push_cast; linarith
  exact mul_lt_mul_of_pos_right hcast hq

/-- Witness for the amended C4 at `z = 2`. -/
theorem redshift_grid_invariant_witness :
    (0 : ℝ) < 2 ∧
      ((zgridList 2).length = 1000 ∧
        (∀ k, k + 1 < 1000 → zgrid 2 k < zgrid 2 (k + 1)) ∧
        zgrid 2 0 = 0 ∧ zgrid 2 999 = 2) :=
  ⟨by norm_num, redshift_grid_invariant 2 (by norm_num)⟩

/-! ### The batched two-tier path: searchsorted and interpolation (C3) -/

lemma searchsorted_bracket {zmax v : ℝ} {j : ℕ} (hzmax : 0 < zmax) (hj1 : 1 ≤ j)
    (hj2 : j ≤ 999) (hlo : sbiGrid zmax (j - 1) < v) (hhi : v ≤ sbiGrid zmax j) :
    searchsorted zmax v = j := by
  unfold searchsorted
  have hq : (0 : ℝ) < zmax / 999 := by positivity
  have hfilter : (Finset.range Npts).filter (fun k => sbiGrid zmax k < v) =
      Finset.range j := by
    ext k
    simp only [Finset.mem_filter, Finset.mem_range]
    constructor
    · rintro ⟨hk1000, hkv⟩
      by_contra hk
      push_neg at hk
      have hmono : sbiGrid zmax j ≤ sbiGrid zmax k := by
        rw [sbiGrid_eq, sbiGrid_eq]
        exact mul_le_mul_of_nonneg_right (Nat.cast_le.mpr hk) (le_of_lt hq)
      linarith [hhi.trans hmono]
    · intro hkj
      refine ⟨lt_of_lt_of_le hkj (show j ≤ 1000 by omega), ?_⟩
      have hk1 : k ≤ j - 1 := by omega
      have hmono : sbiGrid zmax k ≤ sbiGrid zmax (j - 1) := by
        rw [sbiGrid_eq, sbiGrid_eq]
        exact mul_le_mul_of_nonneg_right (Nat.cast_le.mpr hk1) (le_of_lt hq)
      linarith
  rw [hfilter, Finset.card_range]

lemma sbiIdx_bracket {zmax v : ℝ} {j : ℕ} (hzmax : 0 < zmax) (hj1 : 1 ≤ j)
    (hj2 : j ≤ 999) (hlo : sbiGrid zmax (j - 1) < v) (hhi : v ≤ sbiGrid zmax j) :
    sbiIdx zmax v = j := by
  unfold sbiIdx
  rw [searchsorted_bracket hzmax hj1 hj2 hlo hhi]
  have hN : Npts - 1 = 999 := rfl
  rw [hN]
  omega

/-- Claim C3: in the batched path, for a target redshift `v` bracketed by the grid
points of indices `j - 1` and `j` (so `j` is the insertion index of `v`, already in
the clamp range `[1, N-1]`), the index computed by the code is `j` and the
recovered comoving distance is the linear interpolation
`chi[j-1] * (1 - w) + chi[j] * w` of the running cumulative sums, with
`w = (v - z_{j-1}) / (z_j - z_{j-1})`. -/
theorem batched_interpolation (zmax v H0 Om : ℝ) (j : ℕ) (hzmax : 0 < zmax)
    (hj1 : 1 ≤ j) (hj2 : j ≤ 999) (hlo : sbiGrid zmax (j - 1) < v)
    (hhi : v ≤ sbiGrid zmax j) :
    sbiIdx zmax v = j ∧
      sbiChiInterp zmax v H0 Om =
        sbiChiCum zmax H0 Om (j - 1) *
            (1 - (v - sbiGrid zmax (j - 1)) / (sbiGrid zmax j - sbiGrid zmax (j - 1))) +
          sbiChiCum zmax H0 Om j *
            ((v - sbiGrid zmax (j - 1)) / (sbiGrid zmax j - sbiGrid zmax (j - 1))) := by
  have hidx := sbiIdx_bracket hzmax hj1 hj2 hlo hhi
  refine ⟨hidx, ?_⟩
  unfold sbiChiInterp sbiW
  rw [hidx]

/-- Witness for C3 at `zmax = 1`, `v = 1/2`, `H0 = 70`, `Om = 0.3`, `j = 500`. -/
theorem batched_interpolation_witness :
    sbiGrid 1 (500 - 1) < (1/2 : ℝ) ∧ (1/2 : ℝ) ≤ sbiGrid 1 500 ∧
      (sbiIdx 1 (1/2) = 500 ∧
        sbiChiInterp 1 (1/2) 70 (3/10) =
          sbiChiCum 1 70 (3/10) (500 - 1) *
              (1 - ((1/2 : ℝ) - sbiGrid 1 (500 - 1)) /
                (sbiGrid 1 500 - sbiGrid 1 (500 - 1))) +
            sbiChiCum 1 70 (3/10) 500 *
              (((1/2 : ℝ) - sbiGrid 1 (500 - 1)) /
                (sbiGrid 1 500 - sbiGrid 1 (500 - 1)))) :=
  ⟨by rw [sbiGrid_eq]; norm_num, by rw [sbiGrid_eq]; norm_num,
    batched_interpolation 1 (1/2) 70 (3/10) 500 (by norm_num) (by norm_num)
      (by norm_num) (by rw [sbiGrid_eq]; norm_num) (by rw [sbiGrid_eq]; norm_num)⟩

/-! ### Batched path versus direct path (C8) -/

lemma sbiGrid_999 (zmax : ℝ) : sbiGrid zmax 999 = zmax := by
  rw [sbiGrid_eq]
  push_cast
  ring

lemma sbiChiInterp_at_max (zmax H0 Om : ℝ) (hzmax : 0 < zmax) :
    sbiChiInterp zmax zmax H0 Om = sbiChiCum zmax H0 Om 999 := by
  have hq : (0 : ℝ) < zmax / 999 := by positivity
  have h9 : (999 : ℝ) * (zmax / 999) = zmax := by ring
  have h998 : sbiGrid zmax (999 - 1) < zmax := by
    rw [sbiGrid_eq]
    push_cast
    linarith
  have hidx : sbiIdx zmax zmax = 999 :=
    sbiIdx_bracket hzmax (by norm_num) le_rfl h998 (le_of_eq (sbiGrid_999 zmax).symm)
  unfold sbiChiInterp sbiW
  rw [hidx]
  have hden : sbiGrid zmax 999 - sbiGrid zmax (999 - 1) = zmax / 999 := by
    rw [sbiGrid_999, sbiGrid_eq]
    push_cast
    ring
  have hnum : zmax - sbiGrid zmax (999 - 1) = zmax / 999 := by
    rw [sbiGrid_eq]
    push_cast
    ring
  rw [hnum, hden, div_self (ne_of_gt hq)]
  ring

lemma sbiChiCum_999_eq (zmax H0 Om : ℝ) :
    sbiChiCum zmax H0 Om 999 = chiFlat zmax Om H0 := by
  unfold sbiChiCum chiFlat
  rw [Finset.sum_mul]
  rfl

/-- Claim C8 (amended): the batched two-tier path agrees with the direct
single-redshift rectangle rule exactly (hence within 1%) at the largest target
redshift `z_i = max z`; for targets far below the grid spacing the two paths can
disagree by far more than 1% (see the counterexample). -/
theorem batched_matches_direct_at_max (zmax Om H0 : ℝ) (hzmax : 0 < zmax)
    (hH0 : 0 < H0) :
    luminosity_distance_sbi zmax zmax H0 Om = luminosity_distance_flat zmax Om H0 ∧
      |luminosity_distance_sbi zmax zmax H0 Om - luminosity_distance_flat zmax Om H0| ≤
        (1 / 100) * |luminosity_distance_flat zmax Om H0| := by
  have heq : luminosity_distance_sbi zmax zmax H0 Om =
      luminosity_distance_flat zmax Om H0 := by
    unfold luminosity_distance_sbi luminosity_distance_flat
    rw [sbiChiInterp_at_max zmax H0 Om hzmax, sbiChiCum_999_eq]
  exact ⟨heq, by rw [heq, sub_self, abs_zero]; positivity⟩

/-- Witness for the amended C8 at `zmax = 1`, `Om = 0.5`, `H0 = 70`. -/
theorem batched_matches_direct_at_max_witness :
    (0 : ℝ) < 1 ∧ (0 : ℝ) < 70 ∧
      luminosity_distance_sbi 1 1 70 (1/2) = luminosity_distance_flat 1 (1/2) 70 :=
  ⟨by norm_num, by norm_num,
    (batched_matches_direct_at_max 1 (1/2) 70 (by norm_num) (by norm_num)).1⟩

lemma Hflat_Om_zero (z H0 : ℝ) : Hflat z H0 0 = H0 := by
  unfold Hflat
  rw [show (0 : ℝ) * (1 + z) ^ 3 + (1 - 0) = 1 by ring, max_eq_left eps_le_one,
    Real.sqrt_one, mul_one]

lemma Hsbi_Om_zero (z H0 : ℝ) : Hsbi z H0 0 = H0 := by
  unfold Hsbi
  rw [show (0 : ℝ) * (1 + z) ^ 3 + (1 - 0) = 1 by ring, max_eq_left eps_le_one,
    Real.sqrt_one, mul_one]

lemma sbiChiCum_Om_zero (j : ℕ) : sbiChiCum 1 70 0 j = ((j : ℝ) + 1) * (c / 70 * (1 / 999)) := by
  unfold sbiChiCum
  have hs : (∑ k ∈ Finset.range (j + 1), c / Hsbi (sbiGrid 1 k) 70 0 * sbiDz 1) =
      ∑ k ∈ Finset.range (j + 1), c / 70 * sbiDz 1 :=
    Finset.sum_congr rfl fun k _ => by rw [Hsbi_Om_zero]
  rw [hs, Finset.sum_const, Finset.card_range, sbiDz_eq, nsmul_eq_mul]
  push_cast
  norm_num

lemma chiFlat_small : chiFlat (1/9990) 0 70 = 1000 * (c / 70) * (1 / 9980010) := by
  unfold chiFlat
  have hs : (∑ k ∈ Finset.range Npts, c / Hflat (zgrid (1/9990) k) 70 0) =
      ∑ k ∈ Finset.range Npts, c / 70 :=
    Finset.sum_congr rfl fun k _ => by rw [Hflat_Om_zero]
  rw [hs, Finset.sum_const, Finset.card_range, dzStep_eq, nsmul_eq_mul]
  push_cast
  norm_num

lemma sbi_small_idx : sbiIdx 1 (1/9990) = 1 :=
  sbiIdx_bracket (by norm_num) le_rfl (by norm_num)
    (by rw [sbiGrid_eq]; norm_num) (by rw [sbiGrid_eq]; norm_num)

lemma sbi_small_interp : sbiChiInterp 1 (1/9990) 70 0 = c / 70 * (11 / 9990) := by
  unfold sbiChiInterp sbiW
  rw [sbi_small_idx]
  rw [sbiChiCum_Om_zero, sbiChiCum_Om_zero]
  simp only [sbiGrid_eq]
  push_cast
  norm_num
  ring

lemma lum_sbi_small :
    luminosity_distance_sbi 1 (1/9990) 70 0 = (1 + 1/9990) * (c / 70 * (11 / 9990)) := by
  unfold luminosity_distance_sbi
  rw [sbi_small_interp]
  refine max_eq_left ?_
  rw [c_val]
  unfold eps
  norm_num

lemma lum_flat_small :
    luminosity_distance_flat (1/9990) 0 70 =
      (1 + 1/9990) * (1000 * (c / 70) * (1 / 9980010)) := by
  unfold luminosity_distance_flat
  rw [chiFlat_small]
  refine max_eq_left ?_
  rw [c_val]
  unfold eps
  norm_num

/-- Counterexample to C8: with target vector `z = [1/9990, 1]` (so `max z = 1`),
parameters `H0 = 70`, `Om = 0`, the batched path returns about `10.99` times the
direct rectangle-rule value at `z_i = 1/9990`, violating the claimed 1% relative
tolerance. -/
theorem batched_direct_disagree :
    ¬ (|luminosity_distance_sbi 1 (1/9990) 70 0 - luminosity_distance_flat (1/9990) 0 70| ≤
        (1/100) * |luminosity_distance_flat (1/9990) 0 70|) := by
  rw [lum_sbi_small, lum_flat_small, c_val]
  rw [abs_of_nonneg (by norm_num), abs_of_nonneg (by norm_num)]
  norm_num

/-! ### The curved-branch prefactor (C1) -/

lemma chiGen_pos_concrete : 0 < chiGen 1 (3/10) (1/20) 70 := by
  unfold chiGen
  rw [dzStep_eq]
  apply mul_pos
  · apply Finset.sum_pos
    · intro k _
      exact div_pos c_pos (Hgen_pos (by norm_num) _ _ _)
    · exact ⟨0, Finset.mem_range.mpr (by norm_num)⟩
  · norm_num

/-- Claim C1 fails on the code: with the open branch selected, the code's
`open_case` equals `c / H0` times the value the claim (and the spec formula)
prescribes, because `sqrt_abs_Ok` already contains the factor `H0 / c` and is then
reused in the prefactor `c / (H0 * sqrt_abs_Ok)`.  At `z = 1`, `Om = 0.3`,
`Ok = 0.05`, `H0 = 70` the code's pre-clamp value is `c / 70 ≈ 4283` times the
claimed one, hence differs from it. -/
theorem open_branch_prefactor_mismatch :
    dMgen 1 (3/10) (1/20) 70 = c / 70 * spec_r_open 1 (3/10) (1/20) 70 ∧
      dMgen 1 (3/10) (1/20) 70 ≠ spec_r_open 1 (3/10) (1/20) 70 := by
  have habs : |(1/20 : ℝ)| = 1/20 := abs_of_pos (by norm_num)
  have hsp : 0 < Real.sqrt (1/20 : ℝ) := Real.sqrt_pos.mpr (by norm_num)
  have hbranch : dMgen 1 (3/10) (1/20) 70 = open_case 1 (3/10) (1/20) 70 := by
    unfold dMgen
    rw [if_neg, if_pos (by norm_num : (1/20 : ℝ) > 0)]
    rw [habs]
    unfold eps
    norm_num
  have heq : open_case 1 (3/10) (1/20) 70 = c / 70 * spec_r_open 1 (3/10) (1/20) 70 := by
    unfold open_case spec_r_open sqrt_abs_Ok
    rw [habs]
    rw [show Real.sqrt (1/20 : ℝ) * 70 / c * chiGen 1 (3/10) (1/20) 70 =
        Real.sqrt (1/20 : ℝ) * (70 / c) * chiGen 1 (3/10) (1/20) 70 by ring]
    have hs_ne : Real.sqrt (1/20 : ℝ) ≠ 0 := ne_of_gt hsp
    field_simp
    ring
  have hspec_pos : 0 < spec_r_open 1 (3/10) (1/20) 70 := by
    unfold spec_r_open
    apply mul_pos
    · exact div_pos c_pos (mul_pos (by norm_num) hsp)
    · refine Real.sinh_pos_iff.mpr ?_
      exact mul_pos (mul_pos hsp (div_pos (by norm_num) c_pos)) chiGen_pos_concrete
  have hc70 : (1 : ℝ) < c / 70 := by rw [c_val]; norm_num
  refine ⟨hbranch.trans heq, ?_⟩
  rw [hbranch, heq]
  intro hcontra
  nlinarith [hspec_pos, hc70]

/-! ### Monotonicity of the flat distance modulus (C6, amended part) -/

lemma one_le_radFlat {Om u : ℝ} (hOm0 : 0 ≤ Om) (hu : 0 ≤ u) :
    1 ≤ Om * (1 + u) ^ 3 + (1 - Om) := by
  nlinarith [mul_nonneg hOm0 (show (0:ℝ) ≤ 3*u + 3*u^2 + u^3 by nlinarith [hu, sq_nonneg u])]

lemma lin_ineq {z1 z2 a : ℝ} (h1 : 0 ≤ z1) (h12 : z1 ≤ z2) (ha0 : 0 ≤ a) :
    z1 * (1 + a * z2) ≤ z2 * (1 + a * z1) := by nlinarith

lemma sq_lin_ineq {z1 z2 a : ℝ} (h1 : 0 ≤ z1) (h12 : z1 ≤ z2) (ha0 : 0 ≤ a) (ha1 : a ≤ 1) :
    (1 + z1) ^ 2 * (1 + a * z2) ≤ (1 + z2) ^ 2 * (1 + a * z1) := by
  have hz2 : 0 ≤ z2 := h1.trans h12
  have hinner : (0:ℝ) ≤ 2 + z1 + z2 - a + a * z1 * z2 := by
    nlinarith [mul_nonneg (mul_nonneg ha0 h1) hz2]
  nlinarith [mul_nonneg (sub_nonneg.mpr h12) hinner]

lemma cube_ineq {z1 z2 a : ℝ} (h1 : 0 ≤ z1) (h12 : z1 ≤ z2) (ha0 : 0 ≤ a) (ha1 : a ≤ 1) :
    z1 ^ 2 * (1 + z1) ^ 2 * (1 + a * z2) ^ 3 ≤ z2 ^ 2 * (1 + z2) ^ 2 * (1 + a * z1) ^ 3 := by
  have hz2 : 0 ≤ z2 := h1.trans h12
  have haz1 : (0:ℝ) ≤ 1 + a * z1 := by nlinarith [mul_nonneg ha0 h1]
  have haz2 : (0:ℝ) ≤ 1 + a * z2 := by nlinarith [mul_nonneg ha0 hz2]
  have hA := lin_ineq h1 h12 ha0
  have hB := sq_lin_ineq h1 h12 ha0 ha1
  have hA2 : (z1 * (1 + a * z2)) ^ 2 ≤ (z2 * (1 + a * z1)) ^ 2 :=
    pow_le_pow_left (mul_nonneg h1 haz2) hA 2
  have hm : (z1 * (1 + a * z2)) ^ 2 * ((1 + z1) ^ 2 * (1 + a * z2)) ≤
      (z2 * (1 + a * z1)) ^ 2 * ((1 + z2) ^ 2 * (1 + a * z1)) :=
    mul_le_mul hA2 hB (mul_nonneg (by positivity) haz2) (sq_nonneg _)
  calc z1 ^ 2 * (1 + z1) ^ 2 * (1 + a * z2) ^ 3
      = (z1 * (1 + a * z2)) ^ 2 * ((1 + z1) ^ 2 * (1 + a * z2)) := by ring
    _ ≤ (z2 * (1 + a * z1)) ^ 2 * ((1 + z2) ^ 2 * (1 + a * z1)) := hm
    _ = z2 ^ 2 * (1 + z2) ^ 2 * (1 + a * z1) ^ 3 := by ring

lemma key_poly {z1 z2 a Om : ℝ} (h1 : 0 ≤ z1) (h12 : z1 ≤ z2) (ha0 : 0 ≤ a) (ha1 : a ≤ 1)
    (hOm0 : 0 ≤ Om) (hOm1 : Om ≤ 1) :
    (z1 * (1 + z1)) ^ 2 * (Om * (1 + a * z2) ^ 3 + (1 - Om)) ≤
      (z2 * (1 + z2)) ^ 2 * (Om * (1 + a * z1) ^ 3 + (1 - Om)) := by
  have hi := cube_ineq h1 h12 ha0 ha1
  have hii : z1 ^ 2 * (1 + z1) ^ 2 ≤ z2 ^ 2 * (1 + z2) ^ 2 :=
    mul_le_mul (pow_le_pow_left h1 h12 2)
      (pow_le_pow_left (by linarith) (by linarith) 2) (by positivity) (by positivity)
  have e1 := mul_le_mul_of_nonneg_left hi hOm0
  have e2 := mul_le_mul_of_nonneg_left hii (show (0:ℝ) ≤ 1 - Om by linarith)
  nlinarith [e1, e2]

lemma sqrt_term_mono {z1 z2 a Om : ℝ} (h1 : 0 ≤ z1) (h12 : z1 ≤ z2) (ha0 : 0 ≤ a)
    (ha1 : a ≤ 1) (hOm0 : 0 ≤ Om) (hOm1 : Om ≤ 1) :
    z1 * (1 + z1) / Real.sqrt (Om * (1 + a * z1) ^ 3 + (1 - Om)) ≤
      z2 * (1 + z2) / Real.sqrt (Om * (1 + a * z2) ^ 3 + (1 - Om)) := by
  have hz2 : 0 ≤ z2 := h1.trans h12
  have hr1 : (1:ℝ) ≤ Om * (1 + a * z1) ^ 3 + (1 - Om) :=
    one_le_radFlat hOm0 (mul_nonneg ha0 h1)
  have hr2 : (1:ℝ) ≤ Om * (1 + a * z2) ^ 3 + (1 - Om) :=
    one_le_radFlat hOm0 (mul_nonneg ha0 hz2)
  have hs1 : 0 < Real.sqrt (Om * (1 + a * z1) ^ 3 + (1 - Om)) :=
    Real.sqrt_pos.mpr (by linarith)
  have hs2 : 0 < Real.sqrt (Om * (1 + a * z2) ^ 3 + (1 - Om)) :=
    Real.sqrt_pos.mpr (by linarith)
  rw [div_le_div_iff hs1 hs2]
  have key := key_poly h1 h12 ha0 ha1 hOm0 hOm1
  have lhs_eq : z1 * (1 + z1) * Real.sqrt (Om * (1 + a * z2) ^ 3 + (1 - Om)) =
      Real.sqrt ((z1 * (1 + z1)) ^ 2 * (Om * (1 + a * z2) ^ 3 + (1 - Om))) := by
    rw [Real.sqrt_mul (sq_nonneg _), Real.sqrt_sq (mul_nonneg h1 (by linarith))]
  have rhs_eq : z2 * (1 + z2) * Real.sqrt (Om * (1 + a * z1) ^ 3 + (1 - Om)) =
      Real.sqrt ((z2 * (1 + z2)) ^ 2 * (Om * (1 + a * z1) ^ 3 + (1 - Om))) := by
    rw [Real.sqrt_mul (sq_nonneg _), Real.sqrt_sq (mul_nonneg hz2 (by linarith))]
  rw [lhs_eq, rhs_eq]
  exact Real.sqrt_le_sqrt key

lemma flat_term_mono {z1 z2 Om H0 : ℝ} (hH0 : 0 < H0) (hOm0 : 0 ≤ Om) (hOm1 : Om ≤ 1)
    (h1 : 0 ≤ z1) (h12 : z1 ≤ z2) {k : ℕ} (hk : k < 1000) :
    (1 + z1) * (c / Hflat (zgrid z1 k) H0 Om * dzStep z1) ≤
      (1 + z2) * (c / Hflat (zgrid z2 k) H0 Om * dzStep z2) := by
  have ha0 : (0:ℝ) ≤ (k : ℝ) / 999 := by positivity
  have hk999 : (k : ℝ) ≤ 999 := by exact_mod_cast (show k ≤ 999 by omega)
  have ha1 : (k : ℝ) / 999 ≤ 1 := by rw [div_le_one (by norm_num)]; exact hk999
  have hz2 : 0 ≤ z2 := h1.trans h12
  have hzg1 : zgrid z1 k = (k : ℝ) / 999 * z1 := by rw [zgrid_eq]; ring
  have hzg2 : zgrid z2 k = (k : ℝ) / 999 * z2 := by rw [zgrid_eq]; ring
  have hmax1 : max (Om * (1 + (k : ℝ) / 999 * z1) ^ 3 + (1 - Om)) eps =
      Om * (1 + (k : ℝ) / 999 * z1) ^ 3 + (1 - Om) :=
    max_eq_left (le_trans eps_le_one (one_le_radFlat hOm0 (mul_nonneg ha0 h1)))
  have hmax2 : max (Om * (1 + (k : ℝ) / 999 * z2) ^ 3 + (1 - Om)) eps =
      Om * (1 + (k : ℝ) / 999 * z2) ^ 3 + (1 - Om) :=
    max_eq_left (le_trans eps_le_one (one_le_radFlat hOm0 (mul_nonneg ha0 hz2)))
  have hs1 : 0 < Real.sqrt (Om * (1 + (k : ℝ) / 999 * z1) ^ 3 + (1 - Om)) :=
    Real.sqrt_pos.mpr (by nlinarith [one_le_radFlat hOm0 (mul_nonneg ha0 h1)])
  have hs2 : 0 < Real.sqrt (Om * (1 + (k : ℝ) / 999 * z2) ^ 3 + (1 - Om)) :=
    Real.sqrt_pos.mpr (by nlinarith [one_le_radFlat hOm0 (mul_nonneg ha0 hz2)])
  rw [hzg1, hzg2, dzStep_eq, dzStep_eq]
  unfold Hflat
  rw [hmax1, hmax2]
  have e1 : (1 + z1) * (c / (H0 * Real.sqrt (Om * (1 + (k : ℝ) / 999 * z1) ^ 3 + (1 - Om))) *
      (z1 / 999)) = c / (999 * H0) *
        (z1 * (1 + z1) / Real.sqrt (Om * (1 + (k : ℝ) / 999 * z1) ^ 3 + (1 - Om))) := by
    simp only [div_eq_mul_inv, mul_inv]
    ring
  have e2 : (1 + z2) * (c / (H0 * Real.sqrt (Om * (1 + (k : ℝ) / 999 * z2) ^ 3 + (1 - Om))) *
      (z2 / 999)) = c / (999 * H0) *
        (z2 * (1 + z2) / Real.sqrt (Om * (1 + (k : ℝ) / 999 * z2) ^ 3 + (1 - Om))) := by
    simp only [div_eq_mul_inv, mul_inv]
    ring
  rw [e1, e2]
  exact mul_le_mul_of_nonneg_left (sqrt_term_mono h1 h12 ha0 ha1 hOm0 hOm1)
    (le_of_lt (div_pos c_pos (by positivity)))

lemma weighted_chi_mono {z1 z2 Om H0 : ℝ} (hH0 : 0 < H0) (hOm0 : 0 ≤ Om) (hOm1 : Om ≤ 1)
    (h1 : 0 ≤ z1) (h12 : z1 ≤ z2) :
    (1 + z1) * chiFlat z1 Om H0 ≤ (1 + z2) * chiFlat z2 Om H0 := by
  have expand : ∀ z : ℝ, (1 + z) * chiFlat z Om H0 =
      ∑ k ∈ Finset.range Npts, (1 + z) * (c / Hflat (zgrid z k) H0 Om * dzStep z) := by
    intro z
    unfold chiFlat
    rw [Finset.sum_mul, Finset.mul_sum]
  rw [expand z1, expand z2]
  exact Finset.sum_le_sum fun k hk =>
    flat_term_mono hH0 hOm0 hOm1 h1 h12 (Finset.mem_range.mp hk)

/-- Claim C6 (amended): the flat-universe `distance_modulus` is monotonically
non-decreasing in `z` over `z ≥ 0` for `H0 > 0` and `Om ∈ [0, 1]`.  As stated
(general model, arbitrary `Ok`) the claim fails: for closed universes (`Ok < 0`)
the `sin` branch oscillates in `z` — see the counterexample. -/
theorem distance_modulus_flat_mono (z1 z2 Om H0 : ℝ) (hH0 : 0 < H0) (hOm0 : 0 ≤ Om)
    (hOm1 : Om ≤ 1) (h1 : 0 ≤ z1) (h12 : z1 ≤ z2) :
    distance_modulus_flat z1 Om H0 ≤ distance_modulus_flat z2 Om H0 := by
  have hchi := weighted_chi_mono hH0 hOm0 hOm1 h1 h12
  have hlum : luminosity_distance_flat z1 Om H0 ≤ luminosity_distance_flat z2 Om H0 :=
    max_le_max hchi le_rfl
  unfold distance_modulus_flat
  have hpos : 0 < max (luminosity_distance_flat z1 Om H0) eps := radicand_pos _
  have hlog := Real.logb_le_logb_of_le (by norm_num : (1:ℝ) < 10) hpos
    (max_le_max hlum le_rfl)
  linarith

/-- Witness for the amended C6 at `z1 = 0`, `z2 = 1`, `Om = 0.5`, `H0 = 70`. -/
theorem distance_modulus_flat_mono_witness :
    (0:ℝ) < 70 ∧ (0:ℝ) ≤ 1/2 ∧ (1/2:ℝ) ≤ 1 ∧ (0:ℝ) ≤ 0 ∧ (0:ℝ) ≤ 1 ∧
      distance_modulus_flat 0 (1/2) 70 ≤ distance_modulus_flat 1 (1/2) 70 :=
  ⟨by norm_num, by norm_num, by norm_num, le_rfl, by norm_num,
    distance_modulus_flat_mono 0 1 (1/2) 70 (by norm_num) (by norm_num) (by norm_num)
      le_rfl (by norm_num)⟩

/-! ### Failure of monotonicity in the closed branch (C6, counterexample part)

With `Om = -1000`, `Ok = -1/100`, `H0 = 70` the Hubble radicand is exactly `1` at
the grid origin and is clamped to `1e-10` at every other grid point once
`z ≥ 1/2`, so the comoving-distance sum has the exact rational closed form
`chi(z) = (c/70) * 99900001 * (z/999)` and the closed-branch `sin` argument is
`z * 99900001 / 9990`.  Between `z = 0.5002` and `z = 0.5018` this argument
crosses a multiple of `π`, flipping the sign of `sin` and sending the distance
modulus from a finite value back down to the `-25` floor. -/

lemma Hgen_ce_zero : Hgen 0 70 (-1000) (-1/100) = 70 := by
  unfold Hgen
  rw [show (-1000:ℝ) * (1 + 0) ^ 3 + (-1/100) * (1 + 0) ^ 2 + (1 - (-1000) - (-1/100)) = 1
      by norm_num,
    max_eq_left eps_le_one, Real.sqrt_one, mul_one]

lemma Hgen_ce_clamped {u : ℝ} (hu : 1/2000 ≤ u) :
    Hgen u 70 (-1000) (-1/100) = 70 * (1 / 10 ^ 5) := by
  unfold Hgen
  have hu0 : (0:ℝ) ≤ u := le_trans (by norm_num) hu
  have hrad : (-1000:ℝ) * (1 + u) ^ 3 + (-1/100) * (1 + u) ^ 2 + (1 - (-1000) - (-1/100)) ≤
      eps := by
    unfold eps
    nlinarith [hu, sq_nonneg u, pow_nonneg hu0 3]
  rw [max_eq_right hrad, sqrt_eps]

lemma zgrid_ce_lb {z : ℝ} (hz : 1/2 ≤ z) {k : ℕ} (hk1 : 1 ≤ k) :
    1/2000 ≤ zgrid z k := by
  rw [zgrid_eq]
  have hk : (1:ℝ) ≤ (k : ℝ) := by exact_mod_cast hk1
  have hq : (0:ℝ) ≤ z / 999 := by linarith
  have hstep : z / 999 ≤ (k : ℝ) * (z / 999) := le_mul_of_one_le_left hq hk
  linarith

lemma chiGen_ce {z : ℝ} (hz : 1/2 ≤ z) :
    chiGen z (-1000) (-1/100) 70 = c / 70 * 99900001 * (z / 999) := by
  unfold chiGen
  rw [dzStep_eq]
  have h0 : zgrid z 0 = 0 := by rw [zgrid_eq]; norm_num
  have hconst : (∑ k ∈ Finset.Ico 1 Npts, c / Hgen (zgrid z k) 70 (-1000) (-1/100)) =
      ∑ k ∈ Finset.Ico 1 Npts, c / (70 * (1 / 10 ^ 5)) :=
    Finset.sum_congr rfl fun k hk => by
      rw [Hgen_ce_clamped (zgrid_ce_lb hz (Finset.mem_Ico.mp hk).1)]
  rw [Finset.range_eq_Ico, Finset.sum_eq_sum_Ico_succ_bot (by norm_num : (0:ℕ) < Npts),
    h0, Hgen_ce_zero, hconst, Finset.sum_const, Nat.card_Ico, nsmul_eq_mul]
  ring

lemma dMgen_ce (z : ℝ) : dMgen z (-1000) (-1/100) 70 = closed_case z (-1000) (-1/100) 70 := by
  unfold dMgen
  rw [if_neg, if_neg (by norm_num : ¬((-1/100:ℝ) > 0))]
  rw [abs_of_nonpos (by norm_num : (-1/100:ℝ) ≤ 0)]
  unfold eps
  norm_num

lemma sqrt_abs_Ok_ce : sqrt_abs_Ok (-1/100) 70 = 7 / c := by
  unfold sqrt_abs_Ok
  rw [show |(-1/100 : ℝ)| = (1/10 : ℝ) ^ 2 by rw [abs_of_nonpos (by norm_num)]; norm_num,
    Real.sqrt_sq (by norm_num)]
  ring

lemma closed_case_ce {z : ℝ} (hz : 1/2 ≤ z) :
    closed_case z (-1000) (-1/100) 70 = c * c / 490 * Real.sin (z * (99900001 / 9990)) := by
  unfold closed_case
  rw [sqrt_abs_Ok_ce, chiGen_ce hz]
  have hc := c_ne_zero
  have harg : 7 / c * (c / 70 * 99900001 * (z / 999)) = z * (99900001 / 9990) := by
    field_simp
    ring
  rw [harg]
  have hpref : c / (70 * (7 / c)) = c * c / 490 := by
    field_simp
    norm_num
  rw [hpref]

lemma pi_bounds : (3141592 : ℝ) / 1000000 < Real.pi ∧ Real.pi < (3141593 : ℝ) / 1000000 := by
  have h1 := Real.pi_gt_d6
  have h2 := Real.pi_lt_d6
  norm_num at h1 h2
  exact ⟨by linarith, by linarith⟩

lemma sin_x1_lb : (1/2 : ℝ) < Real.sin ((2501/5000 : ℝ) * (99900001 / 9990)) := by
  have hpi_lo := pi_bounds.1
  have hpi_hi := pi_bounds.2
  obtain ⟨y, hy⟩ : ∃ y : ℝ,
      y = (2501/5000 : ℝ) * (99900001 / 9990) - (796 : ℤ) * (2 * Real.pi) := ⟨_, rfl⟩
  have hsin : Real.sin ((2501/5000 : ℝ) * (99900001 / 9990)) = Real.sin y := by
    have h := Real.sin_add_int_mul_two_pi y 796
    rw [show y + (796 : ℤ) * (2 * Real.pi) = (2501/5000 : ℝ) * (99900001 / 9990) by
      rw [hy]; push_cast; ring] at h
    exact h
  have hylo : (583 : ℝ) / 1000 < y := by
    rw [hy]
    push_cast
    linarith
  have hyhi : y < (586 : ℝ) / 1000 := by
    rw [hy]
    push_cast
    linarith
  have h0y : 0 < y := lt_trans (by norm_num) hylo
  have hy1 : y ≤ 1 := le_of_lt (lt_of_lt_of_le hyhi (by norm_num))
  have hcube := Real.sin_gt_sub_cube h0y hy1
  have hpow : y ^ 3 ≤ ((586 : ℝ) / 1000) ^ 3 := pow_le_pow_left (le_of_lt h0y) (le_of_lt hyhi) 3
  rw [hsin]
  nlinarith [hcube, hpow, hylo]

lemma sin_x2_nonpos : Real.sin ((2509/5000 : ℝ) * (99900001 / 9990)) ≤ 0 := by
  have hpi_lo := pi_bounds.1
  have hpi_hi := pi_bounds.2
  obtain ⟨t, ht⟩ : ∃ t : ℝ,
      t = (2509/5000 : ℝ) * (99900001 / 9990) - Real.pi - (798 : ℤ) * (2 * Real.pi) := ⟨_, rfl⟩
  have hsin : Real.sin ((2509/5000 : ℝ) * (99900001 / 9990)) = -Real.sin t := by
    have h := Real.sin_add_int_mul_two_pi (t + Real.pi) 798
    rw [show t + Real.pi + (798 : ℤ) * (2 * Real.pi) = (2509/5000 : ℝ) * (99900001 / 9990) by
      rw [ht]; push_cast; ring] at h
    rw [Real.sin_add_pi] at h
    exact h
  have htlo : (87 : ℝ) / 100 < t := by
    rw [ht]
    push_cast
    linarith
  have hthi : t < (88 : ℝ) / 100 := by
    rw [ht]
    push_cast
    linarith
  have hsin_t : 0 < Real.sin t :=
    Real.sin_pos_of_pos_of_lt_pi (lt_trans (by norm_num) htlo)
      (lt_trans hthi (lt_trans (by norm_num) hpi_lo))
  rw [hsin]
  linarith

lemma mu_ce_z2 : distance_modulus_gen (2509/5000) (-1000) (-1/100) 70 = -25 := by
  have hCpos : (0:ℝ) ≤ c * c / 490 :=
    le_of_lt (div_pos (mul_pos c_pos c_pos) (by norm_num))
  have hdm : dMgen (2509/5000) (-1000) (-1/100) 70 ≤ 0 := by
    rw [dMgen_ce, closed_case_ce (by norm_num : (1/2:ℝ) ≤ 2509/5000)]
    exact mul_nonpos_iff.mpr (Or.inl ⟨hCpos, sin_x2_nonpos⟩)
  have hle : (1 + 2509/5000 : ℝ) * dMgen (2509/5000) (-1000) (-1/100) 70 ≤ eps := by
    have hprod : (1 + 2509/5000 : ℝ) * dMgen (2509/5000) (-1000) (-1/100) 70 ≤ 0 := by
      nlinarith [hdm]
    linarith [eps_pos]
  unfold distance_modulus_gen luminosity_distance_gen
  rw [max_eq_right hle, max_self, logb_eps]
  norm_num

lemma mu_ce_z1 : -25 < distance_modulus_gen (2501/5000) (-1000) (-1/100) 70 := by
  have hCpos : (0:ℝ) < c * c / 490 := div_pos (mul_pos c_pos c_pos) (by norm_num)
  have hdm : c * c / 490 * (1/2) < dMgen (2501/5000) (-1000) (-1/100) 70 := by
    rw [dMgen_ce, closed_case_ce (by norm_num : (1/2:ℝ) ≤ 2501/5000)]
    exact mul_lt_mul_of_pos_left sin_x1_lb hCpos
  have hC2 : eps < c * c / 490 * (1/2) := by
    rw [c_val]
    unfold eps
    norm_num
  have hdL : eps < (1 + 2501/5000 : ℝ) * dMgen (2501/5000) (-1000) (-1/100) 70 := by
    nlinarith [hdm, hC2, eps_pos]
  unfold distance_modulus_gen luminosity_distance_gen
  rw [max_eq_left (le_of_lt hdL)]
  rw [max_eq_left (le_of_lt hdL)]
  have hlog := Real.logb_lt_logb (by norm_num : (1:ℝ) < 10) eps_pos hdL
  rw [logb_eps] at hlog
  linarith

/-- Counterexample to C6: for the valid parameters `H0 = 70`, `Om = -1000`,
`Ok = -1/100` (the spec enforces no bound on `Om`, `Ok`), the general-model
distance modulus is NOT monotone: `z1 = 0.5002 ≤ z2 = 0.5018` yet
`DistanceModulus(z2) = -25 < DistanceModulus(z1)`, because the closed-branch
`sin` argument crosses a multiple of `π` between the two redshifts. -/
theorem distance_modulus_not_monotone :
    ((2501/5000 : ℝ) ≤ 2509/5000) ∧
      distance_modulus_gen (2509/5000) (-1000) (-1/100) 70 <
        distance_modulus_gen (2501/5000) (-1000) (-1/100) 70 :=
  ⟨by norm_num, by rw [mu_ce_z2]; exact mu_ce_z1⟩

end BATIP
